import Mathlib

/-!
Verification of the Signed Request Envelope (SRE) verifier
(`src/student_agent/verify_sre.py`) against its specification.

The Python module is shallowly embedded:

* Python values that can appear in a JSON-decoded mapping are modelled by
  `PyVal`; the constructor `pyobj` stands for any Python object that
  `json.dumps` cannot serialize (a `set`, `bytes`, a `datetime` instance, ...).
* A Python `dict` is modelled as an association list `List (String × PyVal)`
  (Python dicts have unique keys; theorems that need uniqueness carry a
  `Nodup` hypothesis on the key list).
* `json.dumps(d, ensure_ascii=False, separators=(",", ":"), sort_keys=True)`
  is modelled by `pyDumps`; a Python `TypeError` is an `Except.error`.
* `base64.urlsafe_b64decode` is modelled after CPython's lenient
  `binascii.a2b_base64` (`strict_mode=False`): characters outside the
  base64 alphabet are discarded, `'='` finishes a quad once it is
  sufficiently full, and a trailing partial quad is an error.
* The environment (env vars, the file system, the `cryptography` library)
  is a record `Env` of functions supplied by the caller; Ed25519 signature
  checking is the abstract boolean field `Env.edVerify` (a signature
  produced with the private key matching `pub` is exactly one on which
  `edVerify pub sig msg = true`).
* Each Python operation that mutates state, or could, is threaded
  explicitly; `verify_sre` returns the dictionary the caller's reference
  still designates after the call, plus a trace of which verification
  effects were reached, so that ordering/"not invoked" claims are statable.
-/

/-- A Python value as found in a JSON-decoded mapping, plus `pyobj` for
Python objects that are not JSON serializable. -/
inductive PyVal where
  | pynone
  | pybool (b : Bool)
  | pyint (n : Int)
  | pystr (s : String)
  | pylist (xs : List PyVal)
  | pydict (kvs : List (String × PyVal))
  | pyobj (ty : String)

/-- Python `str()` of a value (as applied to the `signature` field by
`verify_sre`; after schema validation the field is always a `str`, so only
the `pystr` case is ever exercised by the claims). -/
def pyStr : PyVal → String
  | .pynone => "None"
  | .pybool true => "True"
  | .pybool false => "False"
  | .pyint n => toString n
  | .pystr s => s
  | .pylist _ => "<list>"
  | .pydict _ => "<dict>"
  | .pyobj ty => "<" ++ ty ++ " object>"

/-- `d.get(k)` on a Python dict: the value at the first (unique) binding. -/
def pyGet (kvs : List (String × PyVal)) (k : String) : Option PyVal :=
  match kvs with
  | [] => none
  | (k', v) :: rest => if k' = k then some v else pyGet rest k

/-- `d.get(k, dflt)` on a Python dict. -/
def pyGetD (kvs : List (String × PyVal)) (k : String) (dflt : PyVal) : PyVal :=
  (pyGet kvs k).getD dflt

/-- `d.pop(k, None)`: remove the binding of `k` (dict keys are unique, so
removing the first binding is removal of the binding). -/
def removeKey (kvs : List (String × PyVal)) (k : String) : List (String × PyVal) :=
  match kvs with
  | [] => []
  | (k', v) :: rest => if k' = k then removeKey rest k else (k', v) :: removeKey rest k

/-- A Python exception escaping `verify_sre` (only `TypeError` from
`json.dumps` can: every other step is wrapped in `try/except`). -/
inductive PyErr where
  | typeError (msg : String)
  deriving DecidableEq, Repr

/-! ### Strict codepoint order on strings, as used by Python `sorted` -/

/-- Python `<` on strings: strict lexicographic order on code points. -/
def strLtb : List Char → List Char → Bool
  | [], [] => false
  | [], _ :: _ => true
  | _ :: _, [] => false
  | a :: as, b :: bs =>
    if a.toNat < b.toNat then true
    else if a.toNat = b.toNat then strLtb as bs
    else false

/-- `a ≤ b` on strings (Python `sorted` orders by `<`; `≤` is its
negation's flip). -/
def keyLe (a b : String) : Bool := ! strLtb b.toList a.toList

/-! ### `json.dumps(..., ensure_ascii=False, separators=(",", ":"), sort_keys=True)` -/

/-- Lower-case hex digit. -/
def hexDigit (n : Nat) : Char :=
  if n < 10 then Char.ofNat (48 + n) else Char.ofNat (87 + n)

/-- Escape one character exactly as CPython's `py_encode_basestring`
(`ensure_ascii=False`): `"` and `\` get a backslash, control characters
get their short escape or `\u00xx`, everything else (non-ASCII included)
is emitted literally. -/
def jsonEscapeChar (c : Char) : String :=
  if c = '"' then "\\\""
  else if c = '\\' then "\\\\"
  else if c.toNat < 0x20 then
    if c = Char.ofNat 8 then "\\b"
    else if c = Char.ofNat 9 then "\\t"
    else if c = Char.ofNat 10 then "\\n"
    else if c = Char.ofNat 12 then "\\f"
    else if c = Char.ofNat 13 then "\\r"
    else "\\u00" ++ String.mk [hexDigit (c.toNat / 16), hexDigit (c.toNat % 16)]
  else String.mk [c]

/-- JSON string literal of `s`. -/
def jsonQuote (s : String) : String :=
  "\"" ++ (s.toList.foldr (fun c acc => jsonEscapeChar c ++ acc) "") ++ "\""

/-- The relation `sort_keys=True` sorts by (Python string `<=`). -/
def keyLeP (a b : String) : Prop := keyLe a b = true

instance : DecidableRel keyLeP := fun a b => by
  unfold keyLeP; infer_instance

/-- Python `sep.join(parts)`. -/
def joinSep (sep : String) : List String → String
  | [] => ""
  | [x] => x
  | x :: y :: xs => x ++ sep ++ joinSep sep (y :: xs)

mutual

/-- `json.dumps(v, ensure_ascii=False, separators=(",", ":"), sort_keys=True)`.
A `pyobj` value raises `TypeError` ("Object of type ... is not JSON
serializable").  For a dict, entries are rendered and then emitted in
ascending order of the *raw* keys; since Python dict keys are unique,
emitting `sorted(d.items())` is emission at the sorted key list with the
dict's (unique) binding looked up per key, which is how it is written
here so that the recursion stays structural. -/
def pyDumps : PyVal → Except PyErr String
  | .pynone => .ok "null"
  | .pybool true => .ok "true"
  | .pybool false => .ok "false"
  | .pyint n => .ok (toString n)
  | .pystr s => .ok (jsonQuote s)
  | .pylist xs =>
    match pyDumpsList xs with
    | .error e => .error e
    | .ok items => .ok ("[" ++ joinSep "," items ++ "]")
  | .pydict kvs =>
    match pyDumpsEntries kvs with
    | .error e => .error e
    | .ok entries =>
      let ks := List.insertionSort keyLeP (entries.map Prod.fst)
      .ok ("\x7b" ++
        joinSep ","
          (ks.map (fun k => jsonQuote k ++ ":" ++ ((entries.lookup k).getD ""))) ++
        "\x7d")
  | .pyobj ty => .error (.typeError ("Object of type " ++ ty ++ " is not JSON serializable"))

/-- Render the elements of a Python list in order. -/
def pyDumpsList : List PyVal → Except PyErr (List String)
  | [] => .ok []
  | v :: rest =>
    match pyDumps v, pyDumpsList rest with
    | .ok s, .ok ss => .ok (s :: ss)
    | .error e, _ => .error e
    | .ok _, .error e => .error e

/-- Render each dict entry's value, keeping the raw key alongside. -/
def pyDumpsEntries : List (String × PyVal) → Except PyErr (List (String × String))
  | [] => .ok []
  | (k, v) :: rest =>
    match pyDumps v, pyDumpsEntries rest with
    | .ok s, .ok ss => .ok ((k, s) :: ss)
    | .error e, _ => .error e
    | .ok _, .error e => .error e

end

/-! ### UTF-8 encoding (`str.encode("utf-8")`) -/

/-- UTF-8 bytes of one code point. -/
def utf8Char (c : Char) : List Nat :=
  let n := c.toNat
  if n < 0x80 then [n]
  else if n < 0x800 then [0xC0 + n / 64, 0x80 + n % 64]
  else if n < 0x10000 then [0xE0 + n / 4096, 0x80 + n / 64 % 64, 0x80 + n % 64]
  else [0xF0 + n / 262144, 0x80 + n / 4096 % 64, 0x80 + n / 64 % 64, 0x80 + n % 64]

/-- `s.encode("utf-8")` as a byte list. -/
def strUtf8 (s : String) : List Nat :=
  s.toList.foldr (fun c acc => utf8Char c ++ acc) []

/-! ### base64url

`_b64url_decode` pads and calls `base64.urlsafe_b64decode`, which
translates `-`/`_` to `+`/`/` and calls `binascii.a2b_base64` with
`strict_mode=False` (lenient): characters outside the base64 alphabet are
*discarded*, `'='` closing a sufficiently full quad ends decoding
successfully, and a leftover partial quad raises `binascii.Error`.
The byte-level loop of CPython's `binascii.c` is reproduced here on code
points; bytes ≥ 0x80 (from non-ASCII characters) are outside the alphabet
and discarded either way, so the code-point view agrees with the byte view. -/

/-- Value of a character in the standard base64 alphabet (`table_a2b_base64`). -/
def b64table (c : Char) : Option Nat :=
  let n := c.toNat
  if 65 ≤ n ∧ n ≤ 90 then some (n - 65)
  else if 97 ≤ n ∧ n ≤ 122 then some (n - 97 + 26)
  else if 48 ≤ n ∧ n ≤ 57 then some (n - 48 + 52)
  else if c = '+' then some 62
  else if c = '/' then some 63
  else none

/-- The `-`/`_` → `+`/`/` translation of `base64.urlsafe_b64decode`. -/
def translUrl (c : Char) : Char :=
  if c = '-' then '+' else if c = '_' then '/' else c

/-- State of the `a2b_base64` loop: position in the current quad, pending
bits of the previous character, consecutive pad count, output bytes. -/
structure A2bSt where
  quad : Nat
  left : Nat
  pads : Nat
  out : List Nat

/-- CPython's lenient `binascii.a2b_base64` loop. -/
def a2bLoop : List Char → A2bSt → Except Unit (List Nat)
  | [], st => if st.quad = 0 then .ok st.out else .error ()
  | c :: rest, st =>
    if c = '=' then
      if 2 ≤ st.quad then
        if 4 ≤ st.quad + (st.pads + 1) then .ok st.out
        else a2bLoop rest { st with pads := st.pads + 1 }
      else a2bLoop rest st
    else
      match b64table c with
      | none => a2bLoop rest st
      | some v =>
        match st.quad with
        | 0 => a2bLoop rest ⟨1, v, 0, st.out⟩
        | 1 => a2bLoop rest ⟨2, v % 16, 0, st.out ++ [st.left * 4 + v / 16]⟩
        | 2 => a2bLoop rest ⟨3, v % 4, 0, st.out ++ [st.left * 16 + v / 4]⟩
        | _ => a2bLoop rest ⟨0, 0, 0, st.out ++ [st.left * 64 + v]⟩

/-- `binascii.a2b_base64(s, strict_mode=False)`. -/
def a2b_base64 (s : List Char) : Except Unit (List Nat) :=
  a2bLoop s ⟨0, 0, 0, []⟩

/-- `_b64url_decode`: right-pad with `=` to a multiple of 4, then
`base64.urlsafe_b64decode`. -/
def b64url_decode (s : String) : Except Unit (List Nat) :=
  let pad := (4 - s.length % 4) % 4
  a2b_base64 (((s ++ String.mk (List.replicate pad '=')).toList).map translUrl)

/-- Character of the urlsafe base64 alphabet for a 6-bit value. -/
def b64urlChr (n : Nat) : Char :=
  if n < 26 then Char.ofNat (65 + n)
  else if n < 52 then Char.ofNat (97 + n - 26)
  else if n < 62 then Char.ofNat (48 + n - 52)
  else if n = 62 then '-'
  else '_'

/-- `base64.urlsafe_b64encode(b).rstrip(b"=")`: the encoder used by the
issuer/tests; full 3-byte groups give 4 characters, a 1- or 2-byte tail
gives 2 or 3 characters and the padding is stripped. -/
def b64urlEncodeNP : List Nat → List Char
  | [] => []
  | [b1] => [b64urlChr (b1 / 4), b64urlChr (b1 % 4 * 16)]
  | [b1, b2] => [b64urlChr (b1 / 4), b64urlChr (b1 % 4 * 16 + b2 / 16), b64urlChr (b2 % 16 * 4)]
  | b1 :: b2 :: b3 :: rest =>
    b64urlChr (b1 / 4) :: b64urlChr (b1 % 4 * 16 + b2 / 16) ::
    b64urlChr (b2 % 16 * 4 + b3 / 64) :: b64urlChr (b3 % 64) :: b64urlEncodeNP rest

/-- String form of the stripped urlsafe encoding. -/
def b64urlEncodeStr (bs : List Nat) : String := String.mk (b64urlEncodeNP bs)

/-! ### Schema validation (`SRE.model_validate`, pydantic v2, lax mode)

pydantic validates every field and aggregates the failures; `e.errors()`
is a list of dicts with `type`, `loc`, `msg` (plus `input` and `url`,
whose rendering carries no information the claims depend on and is
elided here).  Lax ("smart") coercion matters for two fields:

* `round: int = Field(ge=1)` — accepts `int` and integer-valued decimal
  strings, rejects `bool` and everything else;
* `deadline: datetime` — accepts a `str` parsing as ISO-8601 (per the
  `speedate` grammar: date, `T`/`t`/space, time, optional fraction,
  optional `Z`/`z` or `±HH:MM`/`±HHMM` offset), a numeric string (an
  integer or float literal, pydantic-core's `float_parse_bytes`
  fallback), or an `int` number, the numeric cases read as Unix
  timestamps (divided by 1000 at or above the 20_000_000_000 millisecond
  watershed) whose integer part must land in the representable datetime
  range.  Python `float` values would be accepted the same way; `PyVal`
  has no float constructor, so they are outside the modelled universe.
-/

/-- One entry of pydantic's `e.errors()`. -/
structure ValErr where
  ty : String
  locField : String
  msg : String
  deriving DecidableEq, Repr

/-- Rendering of one `e.errors()` entry inside the f-string
`f"Schema validation failed: {e.errors()}"`. -/
def renderErr (e : ValErr) : String :=
  "\x7b'type': '" ++ e.ty ++ "', 'loc': ('" ++ e.locField ++ "',), 'msg': '" ++ e.msg ++ "'\x7d"

/-- Rendering of `e.errors()` (a Python list repr). -/
def renderErrors (es : List ValErr) : String :=
  "[" ++ joinSep ", " (es.map renderErr) ++ "]"

/-- Required `str` field. -/
def valReqStr (field : String) (v : Option PyVal) : List ValErr :=
  match v with
  | none => [⟨"missing", field, "Field required"⟩]
  | some (.pystr _) => []
  | some _ => [⟨"string_type", field, "Input should be a valid string"⟩]

/-- Optional `str | None = None` field. -/
def valOptStr (field : String) (v : Option PyVal) : List ValErr :=
  match v with
  | none => []
  | some .pynone => []
  | some (.pystr _) => []
  | some _ => [⟨"string_type", field, "Input should be a valid string"⟩]

/-- Lax coercion to `int`: `int` itself, or a decimal string; `bool` is
explicitly rejected by pydantic v2. -/
def intCoerce : PyVal → Option Int
  | .pyint n => some n
  | .pystr s => s.toInt?
  | _ => none

/-- `round: int = Field(ge=1)`. -/
def valRound (v : Option PyVal) : List ValErr :=
  match v with
  | none => [⟨"missing", "round", "Field required"⟩]
  | some w =>
    match intCoerce w with
    | none => [⟨"int_type", "round", "Input should be a valid integer"⟩]
    | some n =>
      if 1 ≤ n then []
      else [⟨"greater_than_equal", "round", "Input should be greater than or equal to 1"⟩]

/-- Take exactly `n` leading decimal digits. -/
def takeDigits : Nat → List Char → Option (Nat × List Char)
  | 0, cs => some (0, cs)
  | _ + 1, [] => none
  | n + 1, c :: cs =>
    if c.isDigit then
      match takeDigits n cs with
      | some (v, rest) => some ((c.toNat - 48) * 10 ^ n + v, rest)
      | none => none
    else none

/-- Gregorian leap year. -/
def isLeap (y : Nat) : Bool := y % 4 = 0 ∧ (y % 100 ≠ 0 ∨ y % 400 = 0)

/-- Days in a month. -/
def daysInMonth (y m : Nat) : Nat :=
  if m = 2 then (if isLeap y then 29 else 28)
  else if m = 4 ∨ m = 6 ∨ m = 9 ∨ m = 11 then 30
  else 31

/-- Parse `YYYY-MM-DD`. -/
def isoDate (cs : List Char) : Option (List Char) :=
  match takeDigits 4 cs with
  | none => none
  | some (y, cs) =>
    match cs with
    | '-' :: cs =>
      match takeDigits 2 cs with
      | none => none
      | some (m, cs) =>
        match cs with
        | '-' :: cs =>
          match takeDigits 2 cs with
          | none => none
          | some (d, cs) =>
            if 1 ≤ m ∧ m ≤ 12 ∧ 1 ≤ d ∧ d ≤ daysInMonth y m then some cs else none
        | _ => none
    | _ => none

/-- Parse a `±HH:MM` / `±HHMM` numeric offset after the sign. -/
def isoOffsetTail (cs : List Char) : Bool :=
  match takeDigits 2 cs with
  | none => false
  | some (h, cs) =>
    let rest :=
      match cs with
      | ':' :: cs' => takeDigits 2 cs'
      | _ => takeDigits 2 cs
    match rest with
    | some (m, []) => h ≤ 23 ∧ m ≤ 59
    | _ => false

/-- Parse the timezone part: nothing (naive), `Z`/`z`, or `±HH:MM`/`±HHMM`. -/
def isoZone (cs : List Char) : Bool :=
  match cs with
  | [] => true
  | ['Z'] => true
  | ['z'] => true
  | '+' :: cs => isoOffsetTail cs
  | '-' :: cs => isoOffsetTail cs
  | _ => false

/-- Parse `HH:MM[:SS[.fff...]]` followed by the zone. -/
def isoTime (cs : List Char) : Bool :=
  match takeDigits 2 cs with
  | none => false
  | some (h, cs) =>
    if h ≤ 23 then
      match cs with
      | ':' :: cs =>
        match takeDigits 2 cs with
        | none => false
        | some (m, cs) =>
          if m ≤ 59 then
            match cs with
            | ':' :: cs =>
              match takeDigits 2 cs with
              | none => false
              | some (s, cs) =>
                if s ≤ 59 then
                  match cs with
                  | '.' :: cs =>
                    let frac := cs.takeWhile Char.isDigit
                    frac.length ≥ 1 ∧ isoZone (cs.dropWhile Char.isDigit)
                  | _ => isoZone cs
                else false
            | _ => isoZone cs
          else false
      | _ => false
    else false

/-- A full ISO-8601 datetime: date, `T`/`t`/space separator, time, zone. -/
def isoDatetime (s : String) : Bool :=
  match isoDate s.toList with
  | none => false
  | some cs =>
    match cs with
    | 'T' :: cs => isoTime cs
    | 't' :: cs => isoTime cs
    | ' ' :: cs => isoTime cs
    | _ => false

/-- `speedate`'s millisecond watershed: timestamps at or above
20_000_000_000 in magnitude are milliseconds, below are seconds. -/
def tsSeconds (n : Int) : Int :=
  if 20000000000 ≤ n.natAbs then n / 1000 else n

/-- A Unix timestamp in the representable datetime range
(`0001-01-01T00:00:00` to `9999-12-31T23:59:59`). -/
def tsOk (n : Int) : Bool :=
  -62135596800 ≤ tsSeconds n ∧ tsSeconds n ≤ 253402300799

/-- The value of a digit sequence. -/
def digitsVal (cs : List Char) : Nat :=
  Nat.ofDigits 10 (cs.map (fun c => c.toNat - 48)).reverse

/-- The body of pydantic-core's numeric fallback (`float_parse_bytes`):
digits with at most one decimal point and at least one digit in total
(`"1760000000"`, `"1760000000.5"`, `"1."`, `".5"`); returns the integer
part, on which the timestamp range check operates — the fraction becomes
microseconds and does not move a timestamp in or out of range.  Exponent
forms are not part of that parser's grammar. -/
def intFracVal (cs : List Char) : Option Nat :=
  let intPart := cs.takeWhile Char.isDigit
  match cs.dropWhile Char.isDigit with
  | [] => if intPart = [] then none else some (digitsVal intPart)
  | '.' :: frac =>
    if frac.all Char.isDigit ∧ (intPart ≠ [] ∨ frac ≠ []) then some (digitsVal intPart)
    else none
  | _ => none

/-- A numeric string read as a Unix timestamp: when ISO parsing fails,
pydantic-core falls back to parsing the string as an integer or float
literal (optional minus sign, digits, at most one decimal point) and
range-checks the resulting timestamp. -/
def numericTimestamp (s : String) : Bool :=
  match s.toList with
  | '-' :: cs =>
    match intFracVal cs with
    | some n => tsOk (- Int.ofNat n)
    | none => false
  | cs =>
    match intFracVal cs with
    | some n => tsOk (Int.ofNat n)
    | none => false

/-- pydantic lax acceptance for `deadline: datetime`: ISO-8601 strings,
numeric timestamp strings (integer or float literals), and `int`
timestamps; every other modelled value is rejected.  (pydantic also
accepts Python `float` values by the same truncated range check; `PyVal`
carries no float constructor, so that case lies outside the embedding's
value universe and outside every claim evaluated here.) -/
def deadlineAccept : PyVal → Bool
  | .pystr s => isoDatetime s || numericTimestamp s
  | .pyint n => tsOk n
  | _ => false

/-- `deadline: datetime`. -/
def valDeadline (v : Option PyVal) : List ValErr :=
  match v with
  | none => [⟨"missing", "deadline", "Field required"⟩]
  | some w =>
    if deadlineAccept w then []
    else
      match w with
      | .pystr _ => [⟨"datetime_parsing", "deadline", "Input should be a valid datetime"⟩]
      | .pyint _ => [⟨"datetime_parsing", "deadline", "Input should be a valid datetime"⟩]
      | _ => [⟨"datetime_type", "deadline", "Input should be a valid datetime"⟩]

/-- `SRE.model_validate(data)`: validate all seven fields, aggregating the
failures in field declaration order; extra keys are ignored (pydantic's
default `extra="ignore"`). Returns the list `e.errors()` (empty iff
validation succeeded). -/
def sreValidate (data : List (String × PyVal)) : List ValErr :=
  valReqStr "assignment_id" (pyGet data "assignment_id") ++
  valReqStr "student_id" (pyGet data "student_id") ++
  valOptStr "repo_template" (pyGet data "repo_template") ++
  valRound (pyGet data "round") ++
  valDeadline (pyGet data "deadline") ++
  valOptStr "nonce" (pyGet data "nonce") ++
  valReqStr "signature" (pyGet data "signature")

/-! ### The verifier -/

/-- `_canonical_bytes(payload)`:
`d = dict(payload)` takes a copy, `d.pop("signature", None)` removes the
signature from that copy (the caller's dict is untouched), and the copy is
serialized and UTF-8 encoded.  `json.dumps` raises `TypeError` on a
non-serializable value, and this call is *not* inside a `try` in the
source. -/
def canonical_bytes (payload : List (String × PyVal)) : Except PyErr (List Nat) :=
  match pyDumps (.pydict (removeKey payload "signature")) with
  | .error e => .error e
  | .ok s => .ok (strUtf8 s)

/-- An Ed25519 public key (abstract: only its identity matters). -/
structure PubKey where
  kid : Nat
  deriving DecidableEq, Repr

/-- The verifier's environment: `os.getenv`, `Path.exists`, the key loader
`_load_public_key_from_pem` (file read + PEM parse + Ed25519 type check;
`.error msg` is any exception it raises, caught by the verifier), and the
`cryptography` library's Ed25519 signature check `pub.verify(sig, msg)`
as a boolean oracle. -/
structure Env where
  getenv : String → Option String
  pathExists : String → Bool
  loadKey : String → Except String PubKey
  edVerify : PubKey → List Nat → List Nat → Bool

/-- Verification effects, recorded in order, to state "X happens before
any cryptographic work" claims. -/
inductive Ev where
  | evKeyLoad
  | evSigDecode
  | evCanonicalize
  | evCryptoVerify
  deriving DecidableEq, Repr

/-- Result of `verify_sre`: the returned value (or escaped exception), the
dict the caller's reference still designates, and the effect trace. -/
structure VOut where
  res : Except PyErr (Bool × String)
  dataAfter : List (String × PyVal)
  trace : List Ev

/-- `verify_sre(data)`, translated step by step from the source:
1. `SRE.model_validate(data)`, failures formatted via `e.errors()`;
2. `os.getenv("SRE_PUBLIC_KEY_PATH")`, with Python falsiness (absent or
   empty string both fail);
3. `Path.exists`, then `_load_public_key_from_pem` under `try/except`;
4. `_b64url_decode(str(data.get("signature", "")))` under `try/except`;
5. `_canonical_bytes(data)` — *not* under `try`, a `TypeError` escapes;
6. `pub.verify(sig, message)` under `try/except`. -/
def verify_sre (env : Env) (data : List (String × PyVal)) : VOut :=
  match sreValidate data with
  | e :: es =>
    ⟨.ok (false, "Schema validation failed: " ++ renderErrors (e :: es)), data, []⟩
  | [] =>
    match env.getenv "SRE_PUBLIC_KEY_PATH" with
    | none => ⟨.ok (false, "SRE_PUBLIC_KEY_PATH is not set (path to PEM Ed25519 public key)."), data, []⟩
    | some p =>
      if p = "" then
        ⟨.ok (false, "SRE_PUBLIC_KEY_PATH is not set (path to PEM Ed25519 public key)."), data, []⟩
      else if env.pathExists p = false then
        ⟨.ok (false, "Public key not found at: " ++ p), data, []⟩
      else
        match env.loadKey p with
        | .error ex => ⟨.ok (false, "Failed to load public key: " ++ ex), data, [.evKeyLoad]⟩
        | .ok pub =>
          match b64url_decode (pyStr (pyGetD data "signature" (.pystr ""))) with
          | .error _ =>
            ⟨.ok (false, "Signature is not valid base64url."), data, [.evKeyLoad, .evSigDecode]⟩
          | .ok sig =>
            match canonical_bytes data with
            | .error e => ⟨.error e, data, [.evKeyLoad, .evSigDecode, .evCanonicalize]⟩
            | .ok message =>
              if env.edVerify pub sig message then
                ⟨.ok (true, "ok"), data, [.evKeyLoad, .evSigDecode, .evCanonicalize, .evCryptoVerify]⟩
              else
                ⟨.ok (false, "Signature verification failed."), data,
                  [.evKeyLoad, .evSigDecode, .evCanonicalize, .evCryptoVerify]⟩

/-! ### Substring containment (used to state "the reason mentions the field") -/

/-- Does `hay` start with `needle`? -/
def startsSeg : List Char → List Char → Bool
  | [], _ => true
  | _ :: _, [] => false
  | c :: cs, h :: hs => c == h && startsSeg cs hs

/-- Does `hay` contain `needle` as a contiguous segment? -/
def containsSeg (needle : List Char) : List Char → Bool
  | [] => startsSeg needle []
  | h :: hs => startsSeg needle (h :: hs) || containsSeg needle hs

/-- Does the string `hay` contain the string `needle`? -/
def strContainsB (hay needle : String) : Bool :=
  containsSeg needle.toList hay.toList

/-! ### Concrete fixtures used by witnesses and counterexamples -/

/-- The envelope of the repository's test `_sample_sre` (with a fixed
deadline), parameterized by the signature string. -/
def sampleSRE (sig : String) : List (String × PyVal) :=
  [("assignment_id", .pystr "A1"), ("student_id", .pystr "CSE/24084"),
   ("repo_template", .pystr "basic-webapp"), ("round", .pyint 1),
   ("deadline", .pystr "2025-10-15T23:59:59+05:30"), ("nonce", .pystr "abc123"),
   ("signature", .pystr sig)]

/-- Environment with no `SRE_PUBLIC_KEY_PATH` configured. -/
def envNoKey : Env := ⟨fun _ => none, fun _ => true, fun _ => .ok ⟨1⟩, fun _ _ _ => true⟩

/-- Environment with a configured, loadable key whose verification oracle
accepts (models: the signature being checked is the genuine one). -/
def envAccept : Env :=
  ⟨fun _ => some "/keys/pub.pem", fun _ => true, fun _ => .ok ⟨1⟩, fun _ _ _ => true⟩

/-- Environment with a configured, loadable key whose verification oracle
rejects (models: the bytes are not a valid signature for the message). -/
def envReject : Env :=
  ⟨fun _ => some "/keys/pub.pem", fun _ => true, fun _ => .ok ⟨1⟩, fun _ _ _ => false⟩

/-- The canonical JSON text of `sampleSRE` (signature removed, keys
sorted, compact separators). -/
def sampleCanon : String :=
  "\x7b\"assignment_id\":\"A1\",\"deadline\":\"2025-10-15T23:59:59+05:30\",\"nonce\":\"abc123\",\"repo_template\":\"basic-webapp\",\"round\":1,\"student_id\":\"CSE/24084\"\x7d"

/-- A schema-valid envelope carrying an extra key whose value `json.dumps`
cannot serialize. -/
def envelopeWithUnserializable : List (String × PyVal) :=
  sampleSRE "AAAA" ++ [("junk", .pyobj "set")]

/-- A mapping violating the schema twice over: `assignment_id` missing
and `round = 0`. -/
def badSchemaEnvelope : List (String × PyVal) :=
  [("student_id", .pystr "S1"), ("round", .pyint 0),
   ("deadline", .pystr "2025-10-15T23:59:59Z"), ("signature", .pystr "AAAA")]

/-- A string none of whose characters JSON escapes (no quote, no
backslash, no control character) — such strings are serialized verbatim.
Every valid ISO-8601 deadline string is of this kind. -/
def escFree (s : String) : Bool :=
  s.toList.all (fun c => c != '"' && c != '\\' && decide (32 ≤ c.toNat))

/-- The payload of an `Except.ok`, with `""` for errors (used only to
describe the successful runs of the entry renderer). -/
def exOkStr : Except PyErr String → String
  | .ok s => s
  | .error _ => ""

/-! ### Helper lemmas -/

theorem toList_append (a b : String) : (a ++ b).toList = a.toList ++ b.toList := by
  cases a; cases b; rfl

theorem startsSeg_self_append (n t : List Char) : startsSeg n (n ++ t) = true := by
  induction n with
  | nil => rfl
  | cons c cs ih => simp [startsSeg, ih]

theorem containsSeg_here (n t : List Char) : containsSeg n (n ++ t) = true := by
  cases h : n ++ t with
  | nil =>
    have hn : n = [] := by cases n <;> simp_all
    subst hn; simp [containsSeg, startsSeg]
  | cons c cs =>
    have hstep : containsSeg n (c :: cs) = (startsSeg n (c :: cs) || containsSeg n cs) := rfl
    rw [hstep, ← h, startsSeg_self_append]
    simp

theorem containsSeg_append (pre n post : List Char) :
    containsSeg n (pre ++ n ++ post) = true := by
  induction pre with
  | nil => simpa using containsSeg_here n post
  | cons h hs ih =>
    simp only [List.cons_append]
    have hstep : containsSeg n (h :: (hs ++ n ++ post)) =
        (startsSeg n (h :: (hs ++ n ++ post)) || containsSeg n (hs ++ n ++ post)) := rfl
    rw [hstep, ih]
    simp

theorem strContainsB_parts (a n b : String) : strContainsB (a ++ n ++ b) n = true := by
  unfold strContainsB
  rw [toList_append, toList_append]
  exact containsSeg_append a.toList n.toList b.toList

theorem strContainsB_of_eq (hay a n b : String) (h : hay = a ++ n ++ b) :
    strContainsB hay n = true := by
  subst h; exact strContainsB_parts a n b

theorem joinSep_mem (sep x : String) (parts : List String) (hx : x ∈ parts) :
    ∃ a b, joinSep sep parts = a ++ x ++ b := by
  induction parts with
  | nil => cases hx
  | cons p ps ih =>
    rcases List.mem_cons.1 hx with h | h
    · subst h
      cases ps with
      | nil => exact ⟨"", "", by simp [joinSep]⟩
      | cons q qs =>
        refine ⟨"", sep ++ joinSep sep (q :: qs), ?_⟩
        simp [joinSep, String.append_assoc]
    · have hx' := ih h
      rcases hx' with ⟨a, b, hab⟩
      cases ps with
      | nil => cases h
      | cons q qs =>
        refine ⟨p ++ sep ++ a, b, ?_⟩
        rw [joinSep, hab]
        simp [String.append_assoc]

/-! ### Claim theorems -/

/-- C10: `verify_sre` leaves the input mapping unchanged: whichever branch
returns (or raises), the dict the caller holds afterwards has exactly the
original bindings — `SRE.model_validate` does not write typed values back
and `_canonical_bytes` pops `signature` from a copy only. -/
theorem claim_C10_no_mutation (env : Env) (data : List (String × PyVal)) :
    (verify_sre env data).dataAfter = data := by
  unfold verify_sre
  repeat' split
  all_goals rfl

/-- C8: for a schema-valid envelope with no configured key path (unset or
empty `SRE_PUBLIC_KEY_PATH`), `verify_sre` returns the "is not set" reason
with an empty effect trace: the key loader is not invoked, the signature
is not decoded, no canonical bytes are computed and no cryptographic work
happens — whatever the signature field holds. -/
theorem claim_C8_missing_key_short_circuit (env : Env) (data : List (String × PyVal))
    (hschema : sreValidate data = [])
    (hkey : env.getenv "SRE_PUBLIC_KEY_PATH" = none ∨
      env.getenv "SRE_PUBLIC_KEY_PATH" = some "") :
    (verify_sre env data).res =
      .ok (false, "SRE_PUBLIC_KEY_PATH is not set (path to PEM Ed25519 public key).") ∧
    (verify_sre env data).trace = [] := by
  unfold verify_sre
  rw [hschema]
  rcases hkey with h | h <;> rw [h] <;> exact ⟨rfl, rfl⟩

/-- Witness for C8: the sample envelope with a malformed signature, an
environment without a configured key. -/
theorem claim_C8_missing_key_short_circuit_witness :
    (verify_sre envNoKey (sampleSRE "!!!")).res =
      .ok (false, "SRE_PUBLIC_KEY_PATH is not set (path to PEM Ed25519 public key).") ∧
    (verify_sre envNoKey (sampleSRE "!!!")).trace = [] :=
  claim_C8_missing_key_short_circuit envNoKey (sampleSRE "!!!") (by decide) (Or.inl rfl)

/-- C3: for a schema-valid envelope whose signature decodes, once the key
loads and the canonical bytes are computed, a failing cryptographic check
yields exactly `(false, "Signature verification failed.")` — the one fixed
message for every cryptographic sub-cause (a mutated field, random or
wrong-length signature bytes, and a wrong key are all just
`edVerify = false` here). -/
theorem claim_C3_generic_crypto_failure (env : Env) (data : List (String × PyVal))
    (p : String) (pub : PubKey) (sig bs : List Nat)
    (hschema : sreValidate data = [])
    (hp : env.getenv "SRE_PUBLIC_KEY_PATH" = some p) (hpne : p ≠ "")
    (hex : env.pathExists p = true)
    (hload : env.loadKey p = .ok pub)
    (hdec : b64url_decode (pyStr (pyGetD data "signature" (.pystr ""))) = .ok sig)
    (hcanon : canonical_bytes data = .ok bs)
    (hfail : env.edVerify pub sig bs = false) :
    (verify_sre env data).res = .ok (false, "Signature verification failed.") := by
  unfold verify_sre
  rw [hschema, hp]
  simp [hpne, hex, hload, hdec, hcanon, hfail]

/-- Witness for C3: the sample envelope, signature "AAAA" (decoding to
three zero bytes, which no Ed25519 key accepts), a rejecting oracle. -/
theorem claim_C3_generic_crypto_failure_witness :
    (verify_sre envReject (sampleSRE "AAAA")).res =
      .ok (false, "Signature verification failed.") :=
  claim_C3_generic_crypto_failure envReject (sampleSRE "AAAA") "/keys/pub.pem" ⟨1⟩
    [0, 0, 0] (strUtf8 sampleCanon) (by decide) rfl (by decide) rfl rfl (by rfl)
    (by rfl) rfl

/-- C9 counterexample: with no public key configured the code performs no
pre-check of the signature at all: the result is the fixed "not set"
configuration failure with an empty effect trace, identically for a
signature satisfying the claimed pre-check (alphabet-only, longer than 8
characters) and for one violating it. -/
theorem claim_C9_counterexample :
    (verify_sre envNoKey (sampleSRE "AAAAAAAAAA")).res =
      .ok (false, "SRE_PUBLIC_KEY_PATH is not set (path to PEM Ed25519 public key).") ∧
    (verify_sre envNoKey (sampleSRE "AAAAAAAAAA")).trace = [] ∧
    (verify_sre envNoKey (sampleSRE "!!")).res =
      .ok (false, "SRE_PUBLIC_KEY_PATH is not set (path to PEM Ed25519 public key).") ∧
    (verify_sre envNoKey (sampleSRE "!!")).trace = [] :=
  ⟨rfl, rfl, rfl, rfl⟩

/-- C9 amended: when no key path is configured, `verify_sre` returns the
"not set" configuration failure for every schema-valid envelope, with an
empty effect trace and a result independent of the envelope (in
particular of its signature field): no lighter pre-check variant of
verification exists in the code. -/
theorem claim_C9_no_stub_precheck (env : Env) (d1 d2 : List (String × PyVal))
    (h1 : sreValidate d1 = []) (h2 : sreValidate d2 = [])
    (hk : env.getenv "SRE_PUBLIC_KEY_PATH" = none) :
    (verify_sre env d1).res = (verify_sre env d2).res ∧
    (verify_sre env d1).res =
      .ok (false, "SRE_PUBLIC_KEY_PATH is not set (path to PEM Ed25519 public key).") ∧
    (verify_sre env d1).trace = [] := by
  unfold verify_sre
  rw [h1, h2, hk]
  exact ⟨rfl, rfl, rfl⟩

/-- Witness for the amended C9. -/
theorem claim_C9_no_stub_precheck_witness :
    (verify_sre envNoKey (sampleSRE "AAAAAAAAAA")).res =
      (verify_sre envNoKey (sampleSRE "!!")).res ∧
    (verify_sre envNoKey (sampleSRE "AAAAAAAAAA")).res =
      .ok (false, "SRE_PUBLIC_KEY_PATH is not set (path to PEM Ed25519 public key).") ∧
    (verify_sre envNoKey (sampleSRE "AAAAAAAAAA")).trace = [] :=
  claim_C9_no_stub_precheck envNoKey (sampleSRE "AAAAAAAAAA") (sampleSRE "!!")
    (by decide) (by decide) rfl

/-- C5 counterexample: on a schema-valid mapping carrying an extra key
whose value is not JSON serializable, `verify_sre` does not return a
structured pair: the `TypeError` raised by `json.dumps` inside
`_canonical_bytes` — a call that is not under `try/except` — escapes. -/
theorem claim_C5_counterexample :
    (verify_sre envAccept envelopeWithUnserializable).res =
      .error (.typeError "Object of type set is not JSON serializable") := by
  rfl

/-- C5 amended: for every input mapping all of whose values `json.dumps`
can serialize, `verify_sre` returns a structured `(bool, reason)` pair and
never raises — schema errors, missing configuration, key-loading failures
(OS-level file errors enter through `Env.loadKey` and are caught),
signature-decoding failures and cryptographic failures all become
`(false, reason)`; only a non-serializable value reaching
canonicalization escapes as a `TypeError`. -/
theorem claim_C5_structured_results (env : Env) (data : List (String × PyVal))
    (hser : ∃ s, pyDumps (.pydict (removeKey data "signature")) = .ok s) :
    ∃ r, (verify_sre env data).res = .ok r := by
  obtain ⟨s, hs⟩ := hser
  have hcanon : canonical_bytes data = .ok (strUtf8 s) := by
    unfold canonical_bytes
    rw [hs]
  unfold verify_sre
  repeat' split
  all_goals
    first
      | exact ⟨_, rfl⟩
      | (rename_i e heq
         rw [hcanon] at heq
         exact Except.noConfusion heq)

/-- Witness for the amended C5. -/
theorem claim_C5_structured_results_witness :
    ∃ r, (verify_sre envNoKey (sampleSRE "AAA")).res = .ok r :=
  claim_C5_structured_results envNoKey (sampleSRE "AAA") ⟨sampleCanon, by rfl⟩

/-- C6: every schema-violating mapping is rejected with a reason that
starts with "Schema validation failed:", renders pydantic's aggregated
`e.errors()` list — all violations, not only the first — and mentions the
field of each violation. -/
theorem claim_C6_schema_rejection (env : Env) (data : List (String × PyVal))
    (hne : sreValidate data ≠ []) :
    (verify_sre env data).res =
      .ok (false, "Schema validation failed: " ++ renderErrors (sreValidate data)) ∧
    ∀ e ∈ sreValidate data,
      strContainsB ("Schema validation failed: " ++ renderErrors (sreValidate data))
        e.locField = true := by
  obtain ⟨e0, es, hval⟩ := List.exists_cons_of_ne_nil hne
  constructor
  · unfold verify_sre
    rw [hval]
  · intro e he
    have hmem : renderErr e ∈ (sreValidate data).map renderErr :=
      List.mem_map_of_mem renderErr he
    obtain ⟨a, b, hab⟩ := joinSep_mem ", " (renderErr e) _ hmem
    apply strContainsB_of_eq _
      ("Schema validation failed: " ++ "[" ++ a ++ ("\x7b'type': '" ++ e.ty ++ "', 'loc': ('"))
      e.locField
      (("',), 'msg': '" ++ e.msg ++ "'\x7d") ++ b ++ "]")
    unfold renderErrors
    rw [hab]
    unfold renderErr
    simp only [String.append_assoc]

/-- Witness for C6: an envelope missing `assignment_id` and with
`round = 0`; both violations are reported and both fields are mentioned
in the single reason string. -/
theorem claim_C6_schema_rejection_witness :
    (verify_sre envNoKey badSchemaEnvelope).res =
      .ok (false, "Schema validation failed: " ++ renderErrors (sreValidate badSchemaEnvelope)) ∧
    strContainsB ("Schema validation failed: " ++ renderErrors (sreValidate badSchemaEnvelope))
      "assignment_id" = true ∧
    strContainsB ("Schema validation failed: " ++ renderErrors (sreValidate badSchemaEnvelope))
      "round" = true :=
  ⟨(claim_C6_schema_rejection envNoKey badSchemaEnvelope (by decide)).1,
   (claim_C6_schema_rejection envNoKey badSchemaEnvelope (by decide)).2
     ⟨"missing", "assignment_id", "Field required"⟩ (by decide),
   (claim_C6_schema_rejection envNoKey badSchemaEnvelope (by decide)).2
     ⟨"greater_than_equal", "round", "Input should be greater than or equal to 1"⟩ (by decide)⟩

/-- Evaluation of `verify_sre` past the key-loading stage: once the schema
passes and the key loads, the result is decided by the signature decode,
the canonicalization and the cryptographic check, in that order. -/
theorem verify_res_after_key (env : Env) (data : List (String × PyVal))
    (p : String) (pub : PubKey)
    (hschema : sreValidate data = [])
    (hp : env.getenv "SRE_PUBLIC_KEY_PATH" = some p) (hpne : p ≠ "")
    (hex : env.pathExists p = true)
    (hload : env.loadKey p = .ok pub) :
    (verify_sre env data).res =
      match b64url_decode (pyStr (pyGetD data "signature" (.pystr ""))) with
      | .error _ => .ok (false, "Signature is not valid base64url.")
      | .ok sig =>
        match canonical_bytes data with
        | .error e => .error e
        | .ok message =>
          if env.edVerify pub sig message then .ok (true, "ok")
          else .ok (false, "Signature verification failed.") := by
  unfold verify_sre
  rw [hschema, hp]
  simp only [if_neg hpne, hex, Bool.true_eq_false, if_false, hload]
  cases b64url_decode (pyStr (pyGetD data "signature" (.pystr ""))) with
  | error u => rfl
  | ok sig =>
    cases canonical_bytes data with
    | error e => rfl
    | ok message => cases h : env.edVerify pub sig message <;> simp [h]

/-- C4 counterexample: the signature string "AAAA!!!!" contains characters
outside the base64url alphabet, yet decoding succeeds — CPython's lenient
decoder discards them — and on an otherwise valid envelope `verify_sre`
proceeds to the cryptographic check and returns its generic failure, not
the base64url message the claim requires. -/
theorem claim_C4_counterexample :
    b64url_decode "AAAA!!!!" = .ok [0, 0, 0] ∧
    (verify_sre envReject (sampleSRE "AAAA!!!!")).res =
      .ok (false, "Signature verification failed.") :=
  ⟨rfl, rfl⟩

/-- C4 amended: the decoder right-pads its input with `=` to a multiple of
four characters and decodes with CPython's lenient base64: characters
outside the base64url alphabet are *discarded*, not rejected, so decoding
fails exactly when the retained data characters are inconsistent with
base64 framing; for a schema-valid envelope with a configured, loadable
key, `verify_sre` returns `(false, "Signature is not valid base64url.")`
precisely when that lenient decode of the signature fails. -/
theorem claim_C4_decode_failure_iff (env : Env) (data : List (String × PyVal))
    (p : String) (pub : PubKey)
    (hschema : sreValidate data = [])
    (hp : env.getenv "SRE_PUBLIC_KEY_PATH" = some p) (hpne : p ≠ "")
    (hex : env.pathExists p = true)
    (hload : env.loadKey p = .ok pub) :
    (verify_sre env data).res = .ok (false, "Signature is not valid base64url.") ↔
      ∃ e, b64url_decode (pyStr (pyGetD data "signature" (.pystr ""))) = .error e := by
  rw [verify_res_after_key env data p pub hschema hp hpne hex hload]
  cases hd : b64url_decode (pyStr (pyGetD data "signature" (.pystr ""))) with
  | error u => exact ⟨fun _ => ⟨u, rfl⟩, fun _ => rfl⟩
  | ok sig =>
    constructor
    · intro hmsg
      cases hc : canonical_bytes data with
      | error e => rw [hc] at hmsg; exact Except.noConfusion hmsg
      | ok message =>
        rw [hc] at hmsg
        by_cases hv : env.edVerify pub sig message = true <;> simp [hv] at hmsg
    · rintro ⟨e, he⟩
      exact Except.noConfusion he

/-- Witness for the amended C4: signature "A" (one data character — 1 more
than a multiple of 4 — fails even the lenient decoder). -/
theorem claim_C4_decode_failure_iff_witness :
    (verify_sre envReject (sampleSRE "A")).res =
      .ok (false, "Signature is not valid base64url.") :=
  (claim_C4_decode_failure_iff envReject (sampleSRE "A") "/keys/pub.pem" ⟨1⟩
    (by decide) rfl (by decide) rfl rfl).2 ⟨(), by rfl⟩

theorem char_eq_of_toNat_eq {a b : Char} (h : a.toNat = b.toNat) : a = b := by
  apply Char.eq_of_val_eq
  apply UInt32.eq_of_val_eq
  apply Fin.ext
  exact h

theorem strLtb_trans : ∀ as bs cs : List Char,
    strLtb as bs = true → strLtb bs cs = true → strLtb as cs = true := by
  intro as
  induction as with
  | nil =>
    intro bs cs h1 h2
    cases bs with
    | nil => exact h2
    | cons b bt =>
      cases cs with
      | nil => cases h2
      | cons c ct => rfl
  | cons a at' ih =>
    intro bs cs h1 h2
    cases bs with
    | nil => cases h1
    | cons b bt =>
      cases cs with
      | nil => cases h2
      | cons c ct =>
        simp only [strLtb] at h1 h2 ⊢
        by_cases hab : a.toNat < b.toNat
        · by_cases hbc : b.toNat < c.toNat
          · simp [show a.toNat < c.toNat by omega]
          · rw [if_neg hbc] at h2
            by_cases hbc2 : b.toNat = c.toNat
            · simp [show a.toNat < c.toNat by omega]
            · rw [if_neg hbc2] at h2; cases h2
        · rw [if_neg hab] at h1
          by_cases hab2 : a.toNat = b.toNat
          · rw [if_pos hab2] at h1
            by_cases hbc : b.toNat < c.toNat
            · simp [show a.toNat < c.toNat by omega]
            · rw [if_neg hbc] at h2
              by_cases hbc2 : b.toNat = c.toNat
              · rw [if_pos hbc2] at h2
                rw [if_neg (show ¬ a.toNat < c.toNat by omega),
                  if_pos (show a.toNat = c.toNat by omega)]
                exact ih bt ct h1 h2
              · rw [if_neg hbc2] at h2; cases h2
          · rw [if_neg hab2] at h1; cases h1

theorem strLtb_irrefl : ∀ as : List Char, strLtb as as = false := by
  intro as
  induction as with
  | nil => rfl
  | cons a t ih => simp [strLtb, ih]

theorem strLtb_connex : ∀ as bs : List Char,
    strLtb as bs = false → strLtb bs as = false → as = bs := by
  intro as
  induction as with
  | nil =>
    intro bs h1 _
    cases bs with
    | nil => rfl
    | cons b bt => cases h1
  | cons a at' ih =>
    intro bs h1 h2
    cases bs with
    | nil => cases h2
    | cons b bt =>
      simp only [strLtb] at h1 h2
      by_cases hab : a.toNat < b.toNat
      · rw [if_pos hab] at h1; cases h1
      · by_cases hba : b.toNat < a.toNat
        · rw [if_pos hba] at h2; cases h2
        · have heq : a.toNat = b.toNat := by omega
          rw [if_neg hab, if_pos heq] at h1
          rw [if_neg hba, if_pos heq.symm] at h2
          rw [char_eq_of_toNat_eq heq, ih bt h1 h2]

theorem string_toList_inj (a b : String) (h : a.toList = b.toList) : a = b := by
  cases a
  cases b
  exact congrArg String.mk (by simpa [String.toList] using h)

theorem keyLe_total : ∀ a b : String, keyLeP a b ∨ keyLeP b a := by
  intro a b
  cases h : strLtb b.toList a.toList with
  | false =>
    left
    unfold keyLeP keyLe
    rw [h]
    rfl
  | true =>
    right
    have hne : strLtb a.toList b.toList = false := by
      cases hx : strLtb a.toList b.toList with
      | false => rfl
      | true =>
        have := strLtb_trans _ _ _ hx h
        rw [strLtb_irrefl] at this
        cases this
    unfold keyLeP keyLe
    rw [hne]
    rfl

theorem keyLe_trans : ∀ a b c : String, keyLeP a b → keyLeP b c → keyLeP a c := by
  intro a b c h1 h2
  unfold keyLeP keyLe at h1 h2 ⊢
  simp only [Bool.not_eq_true'] at h1 h2 ⊢
  cases hc : strLtb c.toList a.toList with
  | false => rfl
  | true =>
    exfalso
    cases hab : strLtb a.toList b.toList with
    | false =>
      have hba := strLtb_connex _ _ hab h1
      rw [hba] at hc
      rw [h2] at hc
      cases hc
    | true =>
      have hcb := strLtb_trans _ _ _ hc hab
      rw [h2] at hcb
      cases hcb

theorem keyLe_antisymm : ∀ a b : String, keyLeP a b → keyLeP b a → a = b := by
  intro a b h1 h2
  unfold keyLeP keyLe at h1 h2
  simp only [Bool.not_eq_true'] at h1 h2
  exact string_toList_inj a b (strLtb_connex _ _ h2 h1)

/-- Sorting with `keyLeP` maps permuted lists to the same sorted list. -/
theorem insertionSort_keyLe_eq (l1 l2 : List String) (h : l1.Perm l2) :
    List.insertionSort keyLeP l1 = List.insertionSort keyLeP l2 := by
  have hperm : (List.insertionSort keyLeP l1).Perm (List.insertionSort keyLeP l2) :=
    ((List.perm_insertionSort keyLeP l1).trans h).trans
      (List.perm_insertionSort keyLeP l2).symm
  exact @List.eq_of_perm_of_sorted _ keyLeP ⟨fun a b => keyLe_antisymm a b⟩ _ _ hperm
    (@List.sorted_insertionSort _ keyLeP _ ⟨fun a b => keyLe_total a b⟩
      ⟨fun a b c => keyLe_trans a b c⟩ l1)
    (@List.sorted_insertionSort _ keyLeP _ ⟨fun a b => keyLe_total a b⟩
      ⟨fun a b c => keyLe_trans a b c⟩ l2)

/-! ### The entry renderer on successful runs -/

theorem pyDumpsEntries_ok (l : List (String × PyVal))
    (h : ∀ p ∈ l, (pyDumps p.2).isOk = true) :
    pyDumpsEntries l = .ok (l.map (fun p => (p.1, exOkStr (pyDumps p.2)))) := by
  induction l with
  | nil => rfl
  | cons p t ih =>
    obtain ⟨k, v⟩ := p
    have hv := h (k, v) (List.mem_cons_self _ _)
    have ht := ih (fun q hq => h q (List.mem_cons_of_mem _ hq))
    cases hvv : pyDumps v with
    | error er => rw [hvv] at hv; cases hv
    | ok s =>
      have hstep : pyDumpsEntries ((k, v) :: t) =
          (match pyDumps v, pyDumpsEntries t with
           | .ok s, .ok ss => .ok ((k, s) :: ss)
           | .error e, _ => .error e
           | .ok _, .error e => .error e) := rfl
      rw [hstep, hvv, ht]
      simp [hvv, exOkStr]

theorem pyDumpsEntries_allOk (l : List (String × PyVal)) (e : List (String × String))
    (h : pyDumpsEntries l = .ok e) : ∀ p ∈ l, (pyDumps p.2).isOk = true := by
  induction l generalizing e with
  | nil => intro p hp; cases hp
  | cons q t ih =>
    obtain ⟨k, v⟩ := q
    have hstep : pyDumpsEntries ((k, v) :: t) =
        (match pyDumps v, pyDumpsEntries t with
         | .ok s, .ok ss => .ok ((k, s) :: ss)
         | .error e, _ => .error e
         | .ok _, .error e => .error e) := rfl
    rw [hstep] at h
    cases hvv : pyDumps v with
    | error er =>
      rw [hvv] at h
      cases ht : pyDumpsEntries t <;> rw [ht] at h <;> cases h
    | ok s =>
      rw [hvv] at h
      cases ht : pyDumpsEntries t with
      | error er => rw [ht] at h; cases h
      | ok ss =>
        intro p hp
        rcases List.mem_cons.1 hp with hp' | hp'
        · subst hp'
          show (pyDumps v).isOk = true
          rw [hvv]
          rfl
        · exact ih ss ht p hp'

/-- `List.lookup` is insertion-order independent on mappings with unique
keys. -/
theorem lookup_perm_nodup {β : Type} (k : String) :
    ∀ {l1 l2 : List (String × β)}, l1.Perm l2 → (l1.map Prod.fst).Nodup →
      l1.lookup k = l2.lookup k := by
  intro l1 l2 h
  induction h with
  | nil => intro _; rfl
  | cons x h ih =>
    intro hnd
    obtain ⟨xk, xv⟩ := x
    simp only [List.map_cons, List.nodup_cons] at hnd
    by_cases hk : k = xk
    · subst hk
      simp [List.lookup]
    · have hb : (k == xk) = false := beq_eq_false_iff_ne.mpr hk
      simp only [List.lookup, hb]
      exact ih hnd.2
  | swap x y t =>
    intro hnd
    obtain ⟨xk, xv⟩ := x
    obtain ⟨yk, yv⟩ := y
    simp only [List.map_cons, List.nodup_cons, List.mem_cons] at hnd
    have hxy : yk ≠ xk := fun hcon => hnd.1 (Or.inl hcon)
    simp only [List.lookup]
    by_cases hky : k = yk
    · subst hky
      have hbx : (k == xk) = false := beq_eq_false_iff_ne.mpr hxy
      simp [hbx]
    · have hby : (k == yk) = false := beq_eq_false_iff_ne.mpr hky
      by_cases hkx : k = xk
      · subst hkx
        simp [hby]
      · have hbx : (k == xk) = false := beq_eq_false_iff_ne.mpr hkx
        simp [hbx, hby]
  | trans h1 h2 ih1 ih2 =>
    intro hnd
    exact (ih1 hnd).trans (ih2 ((h1.map Prod.fst).nodup_iff.1 hnd))

/-- Looking up a key bound in a uniquely-keyed mapping after a
key-preserving map finds that binding's image. -/
theorem lookup_map_unique (l : List (String × PyVal)) (g : String × PyVal → String)
    (k : String) (v : PyVal) (hmem : (k, v) ∈ l) (hnd : (l.map Prod.fst).Nodup) :
    (l.map (fun p => (p.1, g p))).lookup k = some (g (k, v)) := by
  induction l with
  | nil => cases hmem
  | cons p t ih =>
    obtain ⟨pk, pv⟩ := p
    simp only [List.map_cons, List.nodup_cons] at hnd
    rcases List.mem_cons.1 hmem with heq | hmem'
    · rw [show pk = k from (congrArg Prod.fst heq.symm),
        show pv = v from (congrArg Prod.snd heq.symm)]
      simp [List.lookup]
    · have hkne : k ≠ pk := by
        intro hcon
        subst hcon
        exact hnd.1 (List.mem_map_of_mem Prod.fst hmem')
      have hb : (k == pk) = false := beq_eq_false_iff_ne.mpr hkne
      simp only [List.map_cons, List.lookup, hb]
      exact ih hmem' hnd.2

/-- The dict case of the serializer, rewritten through its entries. -/
theorem pyDumps_dict_of_entries (l : List (String × PyVal)) (e : List (String × String))
    (he : pyDumpsEntries l = .ok e) :
    pyDumps (.pydict l) = .ok ("\x7b" ++ joinSep ","
      ((List.insertionSort keyLeP (e.map Prod.fst)).map
        (fun k => jsonQuote k ++ ":" ++ ((e.lookup k).getD ""))) ++ "\x7d") := by
  have hstep : pyDumps (.pydict l) = (match pyDumpsEntries l with
      | .error er => .error er
      | .ok entries =>
        .ok ("\x7b" ++ joinSep ","
          ((List.insertionSort keyLeP (entries.map Prod.fst)).map
            (fun k => jsonQuote k ++ ":" ++ ((entries.lookup k).getD ""))) ++ "\x7d")) := rfl
  rw [hstep, he]

/-- The dict case of the serializer when an entry fails. -/
theorem pyDumps_dict_of_entries_error (l : List (String × PyVal)) (er : PyErr)
    (he : pyDumpsEntries l = .error er) : pyDumps (.pydict l) = .error er := by
  have hstep : pyDumps (.pydict l) = (match pyDumpsEntries l with
      | .error er => .error er
      | .ok entries =>
        .ok ("\x7b" ++ joinSep ","
          ((List.insertionSort keyLeP (entries.map Prod.fst)).map
            (fun k => jsonQuote k ++ ":" ++ ((entries.lookup k).getD ""))) ++ "\x7d")) := rfl
  rw [hstep, he]

/-- Serializing a dict is insertion-order independent (successful runs):
the canonicalization guarantee behind `sort_keys=True`. -/
theorem pyDumps_dict_perm (l1 l2 : List (String × PyVal)) (h : l1.Perm l2)
    (hnd : (l1.map Prod.fst).Nodup) (s : String)
    (hok : pyDumps (.pydict l1) = .ok s) : pyDumps (.pydict l2) = .ok s := by
  cases he1 : pyDumpsEntries l1 with
  | error er => rw [pyDumps_dict_of_entries_error l1 er he1] at hok; cases hok
  | ok e1 =>
    rw [pyDumps_dict_of_entries l1 e1 he1] at hok
    have hallok1 := pyDumpsEntries_allOk l1 e1 he1
    have hallok2 : ∀ p ∈ l2, (pyDumps p.2).isOk = true :=
      fun p hp => hallok1 p (h.mem_iff.2 hp)
    have he1' : e1 = l1.map (fun p => (p.1, exOkStr (pyDumps p.2))) := by
      have h2 := pyDumpsEntries_ok l1 hallok1
      rw [he1] at h2
      exact Except.ok.inj h2
    have he2 : pyDumpsEntries l2 = .ok (l2.map (fun p => (p.1, exOkStr (pyDumps p.2)))) :=
      pyDumpsEntries_ok l2 hallok2
    rw [pyDumps_dict_of_entries l2 _ he2]
    have hperm' : (l1.map (fun p => (p.1, exOkStr (pyDumps p.2)))).Perm
        (l2.map (fun p => (p.1, exOkStr (pyDumps p.2)))) := h.map _
    have hkeys1 : (l1.map (fun p => (p.1, exOkStr (pyDumps p.2)))).map Prod.fst =
        l1.map Prod.fst := by
      simp [List.map_map, Function.comp]
    have hks : List.insertionSort keyLeP
        ((l1.map (fun p => (p.1, exOkStr (pyDumps p.2)))).map Prod.fst) =
        List.insertionSort keyLeP
        ((l2.map (fun p => (p.1, exOkStr (pyDumps p.2)))).map Prod.fst) :=
      insertionSort_keyLe_eq _ _ (hperm'.map Prod.fst)
    have hnd1 : ((l1.map (fun p => (p.1, exOkStr (pyDumps p.2)))).map Prod.fst).Nodup := by
      rw [hkeys1]
      exact hnd
    have hlook : ∀ k, (l1.map (fun p => (p.1, exOkStr (pyDumps p.2)))).lookup k =
        (l2.map (fun p => (p.1, exOkStr (pyDumps p.2)))).lookup k :=
      fun k => lookup_perm_nodup k hperm' hnd1
    rw [← hok, he1']
    rw [← hks]
    congr 1
    congr 1
    congr 1
    congr 1
    apply List.map_congr_left
    intro k _
    rw [← hlook k]

theorem removeKey_eq_filter (l : List (String × PyVal)) (k : String) :
    removeKey l k = l.filter (fun p => !(p.1 == k)) := by
  induction l with
  | nil => rfl
  | cons p t ih =>
    obtain ⟨k', v⟩ := p
    by_cases h : k' = k
    · subst h
      simp [removeKey, List.filter, ih]
    · have hb : (k' == k) = false := beq_eq_false_iff_ne.mpr h
      simp [removeKey, List.filter, h, hb, ih]

theorem removeKey_keys_nodup (l : List (String × PyVal)) (k : String)
    (hnd : (l.map Prod.fst).Nodup) : ((removeKey l k).map Prod.fst).Nodup := by
  rw [removeKey_eq_filter]
  exact hnd.sublist ((List.filter_sublist l).map Prod.fst)

/-- `_canonical_bytes` is insertion-order independent on uniquely-keyed
mappings (successful runs). -/
theorem canonical_bytes_perm (l1 l2 : List (String × PyVal)) (bs : List Nat)
    (hnd : (l1.map Prod.fst).Nodup) (h : l1.Perm l2)
    (hok : canonical_bytes l1 = .ok bs) : canonical_bytes l2 = .ok bs := by
  have hperm : (removeKey l1 "signature").Perm (removeKey l2 "signature") := by
    rw [removeKey_eq_filter, removeKey_eq_filter]
    exact h.filter _
  have hnd' := removeKey_keys_nodup l1 "signature" hnd
  unfold canonical_bytes at hok ⊢
  cases hd : pyDumps (.pydict (removeKey l1 "signature")) with
  | error er => rw [hd] at hok; cases hok
  | ok s =>
    rw [hd] at hok
    rw [pyDumps_dict_perm _ _ hperm hnd' s hd]
    exact hok

/-- Every binding of a uniquely-keyed dict surfaces in the serialized
output as the contiguous segment `"key":value`. -/
theorem dumps_dict_parts (l : List (String × PyVal)) (k : String) (v : PyVal)
    (s : String) (hmem : (k, v) ∈ l) (hnd : (l.map Prod.fst).Nodup)
    (hok : pyDumps (.pydict l) = .ok s) :
    ∃ a b, s = a ++ (jsonQuote k ++ ":" ++ exOkStr (pyDumps v)) ++ b := by
  cases he : pyDumpsEntries l with
  | error er => rw [pyDumps_dict_of_entries_error l er he] at hok; cases hok
  | ok e =>
    rw [pyDumps_dict_of_entries l e he] at hok
    have hallok := pyDumpsEntries_allOk l e he
    have he' : e = l.map (fun p => (p.1, exOkStr (pyDumps p.2))) := by
      have h2 := pyDumpsEntries_ok l hallok
      rw [he] at h2
      exact Except.ok.inj h2
    have hkeys : e.map Prod.fst = l.map Prod.fst := by
      rw [he']
      simp [List.map_map, Function.comp]
    have hkmem : k ∈ List.insertionSort keyLeP (e.map Prod.fst) := by
      rw [(List.perm_insertionSort keyLeP (e.map Prod.fst)).mem_iff, hkeys]
      exact List.mem_map_of_mem Prod.fst hmem
    have hlook : e.lookup k = some (exOkStr (pyDumps v)) := by
      rw [he']
      exact lookup_map_unique l (fun p => exOkStr (pyDumps p.2)) k v hmem hnd
    have hpartmem : (jsonQuote k ++ ":" ++ ((e.lookup k).getD "")) ∈
        (List.insertionSort keyLeP (e.map Prod.fst)).map
          (fun k => jsonQuote k ++ ":" ++ ((e.lookup k).getD "")) :=
      List.mem_map_of_mem _ hkmem
    obtain ⟨a, b, hab⟩ := joinSep_mem "," _ _ hpartmem
    refine ⟨"\x7b" ++ a, b ++ "\x7d", ?_⟩
    have hs : s = "\x7b" ++ joinSep ","
        ((List.insertionSort keyLeP (e.map Prod.fst)).map
          (fun k => jsonQuote k ++ ":" ++ ((e.lookup k).getD ""))) ++ "\x7d" :=
      (Except.ok.inj hok).symm
    rw [hs, hab, hlook]
    simp [String.append_assoc, Option.getD]

/-- An escape-free string is serialized verbatim between two quotes. -/
theorem jsonQuote_escFree (s : String) (h : escFree s = true) :
    jsonQuote s = "\"" ++ s ++ "\"" := by
  simp only [escFree, List.all_eq_true, Bool.and_eq_true, bne_iff_ne,
    decide_eq_true_eq] at h
  unfold jsonQuote
  have hf : ∀ cs : List Char, (∀ c ∈ cs, (c ≠ '"' ∧ c ≠ '\\') ∧ 32 ≤ c.toNat) →
      cs.foldr (fun c acc => jsonEscapeChar c ++ acc) "" = String.mk cs := by
    intro cs hcs
    induction cs with
    | nil => rfl
    | cons c ct ih =>
      have hc := hcs c (List.mem_cons_self _ _)
      have hct := ih (fun c' hc' => hcs c' (List.mem_cons_of_mem _ hc'))
      simp only [List.foldr_cons, hct]
      have hesc : jsonEscapeChar c = String.mk [c] := by
        unfold jsonEscapeChar
        rw [if_neg hc.1.1, if_neg hc.1.2, if_neg (by omega)]
      rw [hesc]
      rfl
  rw [hf s.toList h]
  cases s
  rfl

/-- C2 counterexample: a string value containing a quote does not appear
exactly as given in the canonical bytes — `json.dumps` escapes it: the
canonicalization of a mapping with value `x"y` contains `x\"y`, and the
three characters `x"y` occur nowhere contiguously. -/
theorem claim_C2_counterexample :
    canonical_bytes [("a", PyVal.pystr "x\"y")] =
      .ok (strUtf8 "\x7b\"a\":\"x\\\"y\"\x7d") ∧
    strContainsB "\x7b\"a\":\"x\\\"y\"\x7d" "x\"y" = false :=
  ⟨rfl, by decide⟩

/-- C2 amended: `_canonical_bytes` emits the UTF-8 bytes of the JSON
serialization of the mapping with `signature` removed, keys sorted
ascending by code point, `,`/`:` separators without whitespace, non-ASCII
literal.  (1) The result is identical regardless of the mapping's key
insertion order; (2) every key other than `signature` — schema or not —
appears in the output as a JSON string literal; (3) a string value without
JSON-escaped characters (every valid ISO deadline, in particular) appears
verbatim; string values in general appear in JSON-escaped form. -/
theorem claim_C2_canonicalization :
    (∀ (l1 l2 : List (String × PyVal)) (bs : List Nat),
        (l1.map Prod.fst).Nodup → l1.Perm l2 →
        canonical_bytes l1 = .ok bs → canonical_bytes l2 = .ok bs) ∧
    (∀ (l : List (String × PyVal)) (k : String) (v : PyVal) (s : String),
        (k, v) ∈ l → k ≠ "signature" → (l.map Prod.fst).Nodup →
        pyDumps (.pydict (removeKey l "signature")) = .ok s →
        strContainsB s (jsonQuote k) = true) ∧
    (∀ (l : List (String × PyVal)) (k : String) (str : String) (s : String),
        (k, PyVal.pystr str) ∈ l → k ≠ "signature" → (l.map Prod.fst).Nodup →
        escFree str = true →
        pyDumps (.pydict (removeKey l "signature")) = .ok s →
        strContainsB s str = true) := by
  refine ⟨fun l1 l2 bs hnd hperm hok => canonical_bytes_perm l1 l2 bs hnd hperm hok, ?_, ?_⟩
  · intro l k v s hmem hk hnd hok
    have hmem' : (k, v) ∈ removeKey l "signature" := by
      rw [removeKey_eq_filter]
      refine List.mem_filter.2 ⟨hmem, ?_⟩
      simp [hk]
    have hnd' := removeKey_keys_nodup l "signature" hnd
    obtain ⟨a, b, hab⟩ := dumps_dict_parts _ k v s hmem' hnd' hok
    apply strContainsB_of_eq s a (jsonQuote k) ((":" ++ exOkStr (pyDumps v)) ++ b)
    rw [hab]
    simp [String.append_assoc]
  · intro l k str s hmem hk hnd hesc hok
    have hmem' : (k, PyVal.pystr str) ∈ removeKey l "signature" := by
      rw [removeKey_eq_filter]
      refine List.mem_filter.2 ⟨hmem, ?_⟩
      simp [hk]
    have hnd' := removeKey_keys_nodup l "signature" hnd
    obtain ⟨a, b, hab⟩ := dumps_dict_parts _ k (.pystr str) s hmem' hnd' hok
    have hquote : exOkStr (pyDumps (.pystr str)) = "\"" ++ str ++ "\"" :=
      jsonQuote_escFree str hesc
    rw [hquote] at hab
    apply strContainsB_of_eq s (a ++ (jsonQuote k ++ ":" ++ "\"")) str ("\"" ++ b)
    rw [hab]
    simp only [String.append_assoc]

/-- Witness for the amended C2: determinism under reordering of a concrete
mapping, inclusion of an extra (non-schema) key, and verbatim appearance
of the ISO deadline of the sample envelope. -/
theorem claim_C2_canonicalization_witness :
    canonical_bytes [("b", PyVal.pyint 1), ("a", PyVal.pystr "x")] =
      .ok (strUtf8 "\x7b\"a\":\"x\",\"b\":1\x7d") ∧
    (∃ s, pyDumps (.pydict (removeKey (sampleSRE "AAA" ++ [("zz", PyVal.pyint 7)]) "signature")) =
        .ok s ∧ strContainsB s (jsonQuote "zz") = true) ∧
    (∃ s, pyDumps (.pydict (removeKey (sampleSRE "AAA") "signature")) = .ok s ∧
      strContainsB s "2025-10-15T23:59:59+05:30" = true) := by
  refine ⟨?_, ?_, ?_⟩
  · exact claim_C2_canonicalization.1 [("a", PyVal.pystr "x"), ("b", PyVal.pyint 1)]
      [("b", PyVal.pyint 1), ("a", PyVal.pystr "x")] _ (by decide)
      (List.Perm.swap _ _ _) (by rfl)
  · exact ⟨_, rfl,
      claim_C2_canonicalization.2.1 (sampleSRE "AAA" ++ [("zz", PyVal.pyint 7)])
        "zz" (PyVal.pyint 7) _ (by simp [sampleSRE]) (by decide) (by decide) rfl⟩
  · exact ⟨_, rfl,
      claim_C2_canonicalization.2.2 (sampleSRE "AAA")
        "deadline" "2025-10-15T23:59:59+05:30" _ (by simp [sampleSRE])
        (by decide) (by decide) (by decide) rfl⟩

/-! ### Round trip: lenient decoding inverts the issuer's encoder -/

theorem b64_roundtrip_char : ∀ v : Nat, v < 64 →
    (translUrl (b64urlChr v) ≠ '=' ∧ b64table (translUrl (b64urlChr v)) = some v) := by
  decide

theorem a2bLoop_step_q0 (c : Char) (v : Nat) (rest : List Char) (left out)
    (hne : c ≠ '=') (hc : b64table c = some v) :
    a2bLoop (c :: rest) ⟨0, left, 0, out⟩ = a2bLoop rest ⟨1, v, 0, out⟩ := by
  simp [a2bLoop, hne, hc]

theorem a2bLoop_step_q1 (c : Char) (v : Nat) (rest : List Char) (left out)
    (hne : c ≠ '=') (hc : b64table c = some v) :
    a2bLoop (c :: rest) ⟨1, left, 0, out⟩ =
      a2bLoop rest ⟨2, v % 16, 0, out ++ [left * 4 + v / 16]⟩ := by
  simp [a2bLoop, hne, hc]

theorem a2bLoop_step_q2 (c : Char) (v : Nat) (rest : List Char) (left out)
    (hne : c ≠ '=') (hc : b64table c = some v) :
    a2bLoop (c :: rest) ⟨2, left, 0, out⟩ =
      a2bLoop rest ⟨3, v % 4, 0, out ++ [left * 16 + v / 4]⟩ := by
  simp [a2bLoop, hne, hc]

theorem a2bLoop_step_q3 (c : Char) (v : Nat) (rest : List Char) (left out)
    (hne : c ≠ '=') (hc : b64table c = some v) :
    a2bLoop (c :: rest) ⟨3, left, 0, out⟩ =
      a2bLoop rest ⟨0, 0, 0, out ++ [left * 64 + v]⟩ := by
  simp [a2bLoop, hne, hc]

theorem a2bLoop_pad_q2a (rest : List Char) (left out) :
    a2bLoop ('=' :: rest) ⟨2, left, 0, out⟩ = a2bLoop rest ⟨2, left, 1, out⟩ := by
  simp [a2bLoop]

theorem a2bLoop_pad_q2b (rest : List Char) (left out) :
    a2bLoop ('=' :: rest) ⟨2, left, 1, out⟩ = .ok out := by
  simp [a2bLoop]

theorem a2bLoop_pad_q3 (rest : List Char) (left out) :
    a2bLoop ('=' :: rest) ⟨3, left, 0, out⟩ = .ok out := by
  simp [a2bLoop]

theorem encNP_len_mod (b1 b2 b3 : Nat) (rest : List Nat) :
    (b64urlEncodeNP (b1 :: b2 :: b3 :: rest)).length % 4 =
      (b64urlEncodeNP rest).length % 4 := by
  simp [b64urlEncodeNP]
  omega

/-- Decoding the (padding-repaired) issuer encoding of a byte list from
the initial state recovers exactly those bytes, appended to the output
accumulated so far. -/
theorem a2bLoop_enc (bs : List Nat) (hb : ∀ b ∈ bs, b < 256) :
    ∀ (left : Nat) (out : List Nat),
      a2bLoop ((b64urlEncodeNP bs).map translUrl ++
        List.replicate ((4 - (b64urlEncodeNP bs).length % 4) % 4) '=') ⟨0, left, 0, out⟩ =
      .ok (out ++ bs) := by
  induction bs using b64urlEncodeNP.induct with
  | case1 =>
    intro left out
    simp [b64urlEncodeNP, a2bLoop]
  | case2 b1 =>
    intro left out
    have hb1 : b1 < 256 := hb b1 (List.mem_cons_self _ _)
    have h1 := b64_roundtrip_char (b1 / 4) (by omega)
    have h2 := b64_roundtrip_char (b1 % 4 * 16) (by omega)
    show a2bLoop ([translUrl (b64urlChr (b1 / 4)), translUrl (b64urlChr (b1 % 4 * 16))] ++
      List.replicate ((4 - 2 % 4) % 4) '=') ⟨0, left, 0, out⟩ = .ok (out ++ [b1])
    rw [show ((4 - 2 % 4) % 4) = 2 from rfl]
    rw [show ([translUrl (b64urlChr (b1 / 4)), translUrl (b64urlChr (b1 % 4 * 16))] ++
      List.replicate 2 '=') = (translUrl (b64urlChr (b1 / 4)) ::
        translUrl (b64urlChr (b1 % 4 * 16)) :: '=' :: '=' :: []) from rfl]
    rw [a2bLoop_step_q0 _ _ _ left out h1.1 h1.2]
    rw [a2bLoop_step_q1 _ _ _ _ out h2.1 h2.2]
    rw [show b1 / 4 * 4 + b1 % 4 * 16 / 16 = b1 by omega]
    rw [a2bLoop_pad_q2a, a2bLoop_pad_q2b]
  | case3 b1 b2 =>
    intro left out
    have hb1 : b1 < 256 := hb b1 (List.mem_cons_self _ _)
    have hb2 : b2 < 256 := hb b2 (List.mem_cons_of_mem _ (List.mem_cons_self _ _))
    have h1 := b64_roundtrip_char (b1 / 4) (by omega)
    have h2 := b64_roundtrip_char (b1 % 4 * 16 + b2 / 16) (by omega)
    have h3 := b64_roundtrip_char (b2 % 16 * 4) (by omega)
    show a2bLoop ([translUrl (b64urlChr (b1 / 4)),
      translUrl (b64urlChr (b1 % 4 * 16 + b2 / 16)),
      translUrl (b64urlChr (b2 % 16 * 4))] ++
      List.replicate ((4 - 3 % 4) % 4) '=') ⟨0, left, 0, out⟩ = .ok (out ++ [b1, b2])
    rw [show ((4 - 3 % 4) % 4) = 1 from rfl]
    rw [show ([translUrl (b64urlChr (b1 / 4)),
      translUrl (b64urlChr (b1 % 4 * 16 + b2 / 16)),
      translUrl (b64urlChr (b2 % 16 * 4))] ++ List.replicate 1 '=') =
      (translUrl (b64urlChr (b1 / 4)) :: translUrl (b64urlChr (b1 % 4 * 16 + b2 / 16)) ::
        translUrl (b64urlChr (b2 % 16 * 4)) :: '=' :: []) from rfl]
    rw [a2bLoop_step_q0 _ _ _ left out h1.1 h1.2]
    rw [a2bLoop_step_q1 _ _ _ _ out h2.1 h2.2]
    rw [show b1 / 4 * 4 + (b1 % 4 * 16 + b2 / 16) / 16 = b1 by omega]
    rw [a2bLoop_step_q2 _ _ _ _ _ h3.1 h3.2]
    rw [show (b1 % 4 * 16 + b2 / 16) % 16 * 16 + b2 % 16 * 4 / 4 = b2 by omega]
    rw [a2bLoop_pad_q3]
    simp
  | case4 b1 b2 b3 rest ih =>
    intro left out
    have hb1 : b1 < 256 := hb b1 (List.mem_cons_self _ _)
    have hb2 : b2 < 256 := hb b2 (List.mem_cons_of_mem _ (List.mem_cons_self _ _))
    have hb3 : b3 < 256 :=
      hb b3 (List.mem_cons_of_mem _ (List.mem_cons_of_mem _ (List.mem_cons_self _ _)))
    have hbr : ∀ b ∈ rest, b < 256 := fun b hbm =>
      hb b (List.mem_cons_of_mem _ (List.mem_cons_of_mem _ (List.mem_cons_of_mem _ hbm)))
    have h1 := b64_roundtrip_char (b1 / 4) (by omega)
    have h2 := b64_roundtrip_char (b1 % 4 * 16 + b2 / 16) (by omega)
    have h3 := b64_roundtrip_char (b2 % 16 * 4 + b3 / 64) (by omega)
    have h4 := b64_roundtrip_char (b3 % 64) (by omega)
    have hmod := encNP_len_mod b1 b2 b3 rest
    show a2bLoop ((translUrl (b64urlChr (b1 / 4)) ::
      translUrl (b64urlChr (b1 % 4 * 16 + b2 / 16)) ::
      translUrl (b64urlChr (b2 % 16 * 4 + b3 / 64)) ::
      translUrl (b64urlChr (b3 % 64)) :: (b64urlEncodeNP rest).map translUrl) ++
      List.replicate ((4 - (b64urlEncodeNP (b1 :: b2 :: b3 :: rest)).length % 4) % 4) '=')
      ⟨0, left, 0, out⟩ = .ok (out ++ (b1 :: b2 :: b3 :: rest))
    rw [hmod]
    rw [List.cons_append, List.cons_append, List.cons_append, List.cons_append]
    rw [a2bLoop_step_q0 _ _ _ left out h1.1 h1.2]
    rw [a2bLoop_step_q1 _ _ _ _ out h2.1 h2.2]
    rw [show b1 / 4 * 4 + (b1 % 4 * 16 + b2 / 16) / 16 = b1 by omega]
    rw [a2bLoop_step_q2 _ _ _ _ _ h3.1 h3.2]
    rw [show (b1 % 4 * 16 + b2 / 16) % 16 * 16 + (b2 % 16 * 4 + b3 / 64) / 4 = b2 by omega]
    rw [a2bLoop_step_q3 _ _ _ _ _ h4.1 h4.2]
    rw [show (b2 % 16 * 4 + b3 / 64) % 4 * 64 + b3 % 64 = b3 by omega]
    rw [ih hbr 0 (out ++ [b1] ++ [b2] ++ [b3])]
    simp

/-- `_b64url_decode` inverts the issuer's padding-stripped urlsafe
encoding: the round-trip property behind valid-signature acceptance. -/
theorem b64url_decode_encode (bs : List Nat) (hb : ∀ b ∈ bs, b < 256) :
    b64url_decode (b64urlEncodeStr bs) = .ok bs := by
  unfold b64url_decode b64urlEncodeStr a2b_base64
  show a2bLoop (List.map translUrl ((String.mk (b64urlEncodeNP bs) ++
      String.mk (List.replicate ((4 - (String.mk (b64urlEncodeNP bs)).length % 4) % 4)
        '=')).toList)) ⟨0, 0, 0, []⟩ = Except.ok bs
  rw [show ((String.mk (b64urlEncodeNP bs) ++
      String.mk (List.replicate ((4 - (String.mk (b64urlEncodeNP bs)).length % 4) % 4)
        '=')).toList) = b64urlEncodeNP bs ++
      List.replicate ((4 - (b64urlEncodeNP bs).length % 4) % 4) '=' from rfl]
  rw [List.map_append, List.map_replicate, show translUrl '=' = '=' from rfl]
  simpa using a2bLoop_enc bs hb 0 []

/-- C1: round-trip validity. The fresh Ed25519 keypair, the PEM file and
the environment are abstracted by `Env`: the key path is configured and
non-empty, the file exists, the loader returns `pub`, and
`edVerify pub sigBytes msg = true` states that `sigBytes` is a valid
signature of the canonical bytes `msg` under the key pair — which is
exactly what signing the canonical bytes with the matching private key
produces.  With the envelope's signature field set to the stripped
urlsafe base64 encoding of those signature bytes, `verify_sre` returns
`(true, "ok")`. -/
theorem claim_C1_roundtrip (env : Env) (data : List (String × PyVal))
    (p : String) (pub : PubKey) (sigBytes msg : List Nat)
    (hschema : sreValidate data = [])
    (hp : env.getenv "SRE_PUBLIC_KEY_PATH" = some p) (hpne : p ≠ "")
    (hex : env.pathExists p = true)
    (hload : env.loadKey p = .ok pub)
    (hsig : pyGet data "signature" = some (.pystr (b64urlEncodeStr sigBytes)))
    (hbytes : ∀ b ∈ sigBytes, b < 256)
    (hcanon : canonical_bytes data = .ok msg)
    (hver : env.edVerify pub sigBytes msg = true) :
    (verify_sre env data).res = .ok (true, "ok") := by
  rw [verify_res_after_key env data p pub hschema hp hpne hex hload]
  have hgetd : pyStr (pyGetD data "signature" (.pystr "")) = b64urlEncodeStr sigBytes := by
    unfold pyGetD
    rw [hsig]
    rfl
  rw [hgetd, b64url_decode_encode sigBytes hbytes, hcanon]
  simp [hver]

/-- Witness for C1: the sample envelope signed (in the abstract model)
over its canonical bytes with a 64-byte signature. -/
theorem claim_C1_roundtrip_witness :
    (verify_sre envAccept (sampleSRE (b64urlEncodeStr (List.range 64)))).res =
      .ok (true, "ok") :=
  claim_C1_roundtrip envAccept (sampleSRE (b64urlEncodeStr (List.range 64)))
    "/keys/pub.pem" ⟨1⟩ (List.range 64) (strUtf8 sampleCanon)
    (by decide) rfl (by decide) rfl rfl rfl (by decide) (by rfl) rfl
